import Mathlib

/-!
Verification development for the OLO staffing/scheduling backend
(shift lifecycle and timesheet billing engine).

We shallowly embed the core services:
- `services/shiftRequest.service.ts` (creation, approval, clock-in/out,
  timesheet upsert — `src/unnamed/part_004`),
- `services/timesheets.service.ts` (submit/approve/reopen —
  `src/unnamed/part_003`),
- `utils/time-money.ts` and the local week helpers.

Conventions of the embedding:
- Timestamps are integers: milliseconds since the Unix epoch (`Int`),
  matching JavaScript `Date.getTime()`.
- JavaScript numbers are embedded as `ℚ` (exact arithmetic); values the
  code keeps integral (cents, minutes) are `Int`.
- Mongo object ids are opaque and embedded as `Nat`; collections are
  lists of documents; `findById`/`findOne` are first-match searches and
  `save` replaces the matching document in place.
- `Date.now()` is passed explicitly as a `now : Int` parameter.
- Thrown `AppError`s become `Except AppError _` results; a thrown error
  aborts the operation before any subsequent `save`, so the stores are
  only updated on an `.ok` result.
-/

namespace OLO

/-- JavaScript `Math.round`: rounds half toward positive infinity. -/
def jsRound (q : ℚ) : Int := ⌊q + 1/2⌋

/-- Embeds `AppError` from `utils/errors.ts`: message plus HTTP status code. -/
structure AppError where
  message : String
  statusCode : Nat
deriving Repr, DecidableEq

/-- Embeds `NotFoundError` from `utils/errors.ts`: `${resource} not found`, HTTP 404. -/
def notFoundError (resource : String) : AppError :=
  ⟨resource ++ " not found", 404⟩

/-! ## Week bucketing (UTC Monday-based weeks)

`startOfWeekUTC`/`endOfWeekUTC` exist twice in the repository, once in
`utils/time-money.ts` and once as local helpers in the shift-request
service; we embed both and prove them equal.

JavaScript's `Date.UTC(getUTCFullYear, getUTCMonth, getUTCDate)` truncates
a timestamp to the UTC midnight of its day; on millisecond timestamps that
is floor division by 86400000. `getUTCDay` yields 0..6 (Sunday..Saturday);
day 0 of the epoch was a Thursday (= 4). -/

def msPerDay : Int := 86400000

/-- The UTC day number of a timestamp (floor division; `Int.ediv` is floor
division for a positive divisor). -/
def utcDayNumber (t : Int) : Int := t / msPerDay

/-- Embeds `Date.UTC(d.getUTCFullYear(), d.getUTCMonth(), d.getUTCDate())`:
truncation to UTC midnight. -/
def utcMidnight (t : Int) : Int := utcDayNumber t * msPerDay

/-- JavaScript `Date.prototype.getUTCDay`: 0 = Sunday .. 6 = Saturday. -/
def getUTCDay (t : Int) : Int := (utcDayNumber t + 4) % 7

/-- Local `startOfWeekUTC` of `services/shiftRequest.service.ts`:
truncate to UTC midnight, then step back `(getUTCDay + 6) % 7` days to the
Monday of the week. -/
def startOfWeekUTC (d : Int) : Int :=
  utcMidnight d - (getUTCDay (utcMidnight d) + 6) % 7 * msPerDay

/-- Local `endOfWeekUTC` of `services/shiftRequest.service.ts`:
week start plus 6 days, at 23:59:59.999 UTC. -/
def endOfWeekUTC (ws : Int) : Int :=
  ws + 6 * msPerDay + (23 * 3600000 + 59 * 60000 + 59 * 1000 + 999)

/-- Embeds `startOfWeekUTC` of `utils/time-money.ts`: `day = getUTCDay() || 7`,
then step back `day - 1` days when `day > 1`. -/
def startOfWeekUTCTimeMoney (d : Int) : Int :=
  let dt := utcMidnight d
  let day := if getUTCDay dt = 0 then 7 else getUTCDay dt
  if day > 1 then dt - (day - 1) * msPerDay else dt

/-- Embeds `endOfWeekUTC` of `utils/time-money.ts` (same computation as the local
service helper). -/
def endOfWeekUTCTimeMoney (ws : Int) : Int :=
  ws + 6 * msPerDay + (23 * 3600000 + 59 * 60000 + 59 * 1000 + 999)

theorem utcDayNumber_utcMidnight (d : Int) :
    utcDayNumber (utcMidnight d) = utcDayNumber d := by
  unfold utcMidnight utcDayNumber msPerDay
  omega

theorem startOfWeekUTC_eq_timeMoney (d : Int) :
    startOfWeekUTCTimeMoney d = startOfWeekUTC d := by
  simp only [startOfWeekUTCTimeMoney, startOfWeekUTC, getUTCDay, utcDayNumber_utcMidnight]
  by_cases h : (utcDayNumber d + 4) % 7 = 0
  · simp only [h, if_true]
    unfold utcMidnight msPerDay
    omega
  · simp only [h, if_false]
    unfold utcMidnight msPerDay
    split <;> omega

/-- C8: for every input timestamp `d`, the week bucket is the UTC
Monday-through-Sunday week containing `d`: `startOfWeekUTC d` is a Monday
at 00:00:00.000 UTC, `startOfWeekUTC d ≤ d`, `endOfWeekUTC` is the week
start plus 6 days at 23:59:59.999 UTC, and `d ≤ endOfWeekUTC
(startOfWeekUTC d)`. -/
theorem week_bucket_contains_date (d : Int) :
    startOfWeekUTC d % msPerDay = 0 ∧
    getUTCDay (startOfWeekUTC d) = 1 ∧
    startOfWeekUTC d ≤ d ∧
    endOfWeekUTC (startOfWeekUTC d) =
      startOfWeekUTC d + 6 * msPerDay + (23 * 3600000 + 59 * 60000 + 59 * 1000 + 999) ∧
    d ≤ endOfWeekUTC (startOfWeekUTC d) := by
  unfold startOfWeekUTC endOfWeekUTC getUTCDay utcMidnight utcDayNumber msPerDay
  omega

/-! ## Data model (`src/models/*.ts`) -/

/-- Opaque Mongo ObjectId. -/
abbrev OId := Nat

inductive Role
  | PARTICIPANT | TRAINER | ADMIN
deriving Repr, DecidableEq

inductive UserStatus
  | PENDING | ACTIVE | BLOCKED | DELETED
deriving Repr, DecidableEq

/-- Embeds `user.model.ts` (fields the core logic reads). -/
structure User where
  id : OId
  email : String
  role : Role
  status : UserStatus
deriving Repr, DecidableEq

/-- Embeds `trainer.model.ts` (fields the core logic reads). `status` is a
free-form string in the schema (default `"pending"`); `approveAndAssign`
compares it to `"PENDING"`. -/
structure Trainer where
  id : OId
  userId : OId
  fullName : String
  status : String
deriving Repr, DecidableEq

/-- Embeds `participant.model.ts` (fields the core logic reads). -/
structure Participant where
  id : OId
  userId : OId
  fullName : String
  email : String
deriving Repr, DecidableEq

inductive ShiftRequestStatus
  | PENDING_ADMIN | APPROVED | DECLINED | CANCELLED | IN_PROGRESS | COMPLETED
deriving Repr, DecidableEq

/-- Embeds `shiftRequest.model.ts` plus the dynamic fields the services set
(`approvedBy`, `approvedAt`, `declinedReason`). `end` is a Lean keyword,
hence `end_`. -/
structure ShiftRequest where
  id : OId
  participantId : OId
  requestedBy : OId
  service : String
  start : Int
  end_ : Int
  notes : Option String
  preferredTrainerIds : List OId
  status : ShiftRequestStatus
  assignedTrainerId : Option OId
  linkedShiftId : Option OId
  adminComment : Option String
  approvedBy : Option OId
  approvedAt : Option Int
  declinedReason : Option String
deriving Repr, DecidableEq

inductive ShiftStatus
  | IN_PROGRESS | COMPLETED | CANCELLED
deriving Repr, DecidableEq

/-- The trainer report written at clock-out (`shift.report`). -/
structure ShiftReport where
  activities : String
  progress : String
  incidents : String
  km : Option ℚ
deriving Repr, DecidableEq

/-- The billing snapshot frozen onto a Shift at clock-out. -/
structure ShiftBilling where
  billableMinutes : Int
  hourlyRateCents : Int
  kmRateCents : Int
  source : String
  scheduledStart : Int
  scheduledEnd : Int
deriving Repr, DecidableEq

/-- Embeds `shift.model.ts`. -/
structure Shift where
  id : OId
  shiftRequestId : OId
  participantId : OId
  trainerId : OId
  service : String
  scheduledStart : Int
  scheduledEnd : Int
  scheduledDurationMinutes : Int
  actualClockIn : Int
  plannedClockOut : Int
  actualClockOut : Option Int
  status : ShiftStatus
  report : Option ShiftReport
  billing : Option ShiftBilling
deriving Repr, DecidableEq

inductive TimesheetStatus
  | DRAFT | SUBMITTED | APPROVED | PAID | REOPENED
deriving Repr, DecidableEq

/-- Embeds the `timesheet.model.ts` line item. The upsert also stores `minutes`
alongside the schema fields; `hours` is optional because legacy items may
lack it (the recompute backfills it from `minutes / 60`). -/
structure TimesheetItem where
  shiftId : OId
  participantId : OId
  date : Int
  service : String
  minutes : ℚ
  hours : Option ℚ
  km : ℚ
  hourlyRateCents : Int
  kmRateCents : Int
  amountCents : Int
  mileageCents : Int
  totalCents : Int
deriving Repr, DecidableEq

/-- Embeds the `timesheet.model.ts` running totals. -/
structure TimesheetTotals where
  hours : ℚ
  km : ℚ
  amountCents : Int
  mileageCents : Int
  totalCents : Int
deriving Repr, DecidableEq

/-- Audit entry appended by `reopenTimesheet` (`{by, at, reason}`; `by`
and `at` are Lean keywords, hence the underscores). -/
structure AuditEntry where
  by_ : OId
  at_ : Int
  reason : Option String
deriving Repr, DecidableEq

/-- Embeds the `timesheet.model.ts` document (plus the dynamic `audit` list that
`reopenTimesheet` grows). -/
structure Timesheet where
  id : OId
  trainerId : OId
  weekStart : Int
  weekEnd : Int
  status : TimesheetStatus
  items : List TimesheetItem
  totals : TimesheetTotals
  audit : List AuditEntry
deriving Repr, DecidableEq

/-! ## Persistence primitives

Collections are lists of documents. `findDoc` is `Model.findOne` /
`findById` (first match); `saveDoc` is `doc.save()` — it replaces the
first document matching the key predicate, or inserts the document if the
key is absent (the `findOneAndUpdate ... upsert: true` case). -/

def findDoc {α : Type} (p : α → Bool) : List α → Option α
  | [] => none
  | x :: rest => if p x then some x else findDoc p rest

def saveDoc {α : Type} (p : α → Bool) (doc : α) : List α → List α
  | [] => [doc]
  | x :: rest => if p x then doc :: rest else x :: saveDoc p doc rest

theorem findDoc_mem {α : Type} {p : α → Bool} {l : List α} {x : α}
    (h : findDoc p l = some x) : x ∈ l := by
  induction l with
  | nil => simp [findDoc] at h
  | cons y rest ih =>
    by_cases hy : p y
    · simp [findDoc, hy] at h
      simp [h]
    · simp [findDoc, hy] at h
      exact List.mem_cons_of_mem _ (ih h)

theorem findDoc_sat {α : Type} {p : α → Bool} {l : List α} {x : α}
    (h : findDoc p l = some x) : p x = true := by
  induction l with
  | nil => simp [findDoc] at h
  | cons y rest ih =>
    by_cases hy : p y
    · simp [findDoc, hy] at h
      exact h ▸ hy
    · simp [findDoc, hy] at h
      exact ih h

theorem saveDoc_mem {α : Type} {p : α → Bool} {doc : α} {l : List α} {y : α}
    (h : y ∈ saveDoc p doc l) : y ∈ l ∨ y = doc := by
  induction l with
  | nil => simp [saveDoc] at h; simp [h]
  | cons x rest ih =>
    by_cases hx : p x
    · simp [saveDoc, hx] at h
      rcases h with h | h
      · exact Or.inr h
      · exact Or.inl (List.mem_cons_of_mem _ h)
    · simp [saveDoc, hx] at h
      rcases h with h | h
      · exact Or.inl (h ▸ List.mem_cons_self _ _)
      · rcases ih h with h' | h'
        · exact Or.inl (List.mem_cons_of_mem _ h')
        · exact Or.inr h'

/-! ## Timesheet aggregator (`upsertTimesheetForShift`, part_004) -/

/-- Replace-or-append keyed by `shiftId`: the
`findIndex(i => String(i.shiftId) === String(shiftId))` followed by
`items[idx] = item` on a hit and `items.push(item)` on a miss. -/
def upsertItem (item : TimesheetItem) : List TimesheetItem → List TimesheetItem
  | [] => [item]
  | i :: rest =>
    if i.shiftId == item.shiftId then item :: rest else i :: upsertItem item rest

/-- Defensive backfill of legacy items:
`hours: typeof i.hours === "number" ? i.hours : (i.minutes ?? 0) / 60`. -/
def backfillHours (i : TimesheetItem) : TimesheetItem :=
  { i with hours := some (i.hours.getD (i.minutes / 60)) }

/-- Accumulator of the totals-recomputing `reduce`. -/
structure SumAcc where
  minutes : ℚ
  hours : ℚ
  km : ℚ
  amountCents : Int
  mileageCents : Int
deriving Repr, DecidableEq

/-- One step of the totals-recomputing `reduce` in
`upsertTimesheetForShift` (`acc.hours += i.hours ?? ((i.minutes ?? 0) / 60)`
and so on). -/
def sumStep (acc : SumAcc) (i : TimesheetItem) : SumAcc :=
  { minutes := acc.minutes + i.minutes
    hours := acc.hours + i.hours.getD (i.minutes / 60)
    km := acc.km + i.km
    amountCents := acc.amountCents + i.amountCents
    mileageCents := acc.mileageCents + i.mileageCents }

/-- The totals-recomputing `reduce` over the current items, starting from
all-zero accumulators. -/
def sumItems (items : List TimesheetItem) : SumAcc :=
  items.foldl sumStep ⟨0, 0, 0, 0, 0⟩

/-- Arguments of `upsertTimesheetForShift`. `newId` is the id the database
would assign if the upsert inserts a fresh Timesheet. -/
structure UpsertArgs where
  newId : OId
  trainerId : OId
  participantId : OId
  shiftId : OId
  service : String
  date : Int
  minutes : ℚ
  km : ℚ
  hourlyRateCents : Int
  kmRateCents : Int
deriving Repr, DecidableEq

/-- The key of the `findOneAndUpdate({ trainerId, weekStart }, ...)`
upsert. -/
def upsertKey (a : UpsertArgs) (t : Timesheet) : Bool :=
  t.trainerId == a.trainerId && t.weekStart == startOfWeekUTC a.date

/-- The `$setOnInsert` document: a fresh DRAFT timesheet with empty items
and zero totals for the `(trainerId, weekStart)` bucket. -/
def freshTimesheet (a : UpsertArgs) : Timesheet :=
  { id := a.newId, trainerId := a.trainerId, weekStart := startOfWeekUTC a.date,
    weekEnd := endOfWeekUTC (startOfWeekUTC a.date), status := .DRAFT, items := [],
    totals := ⟨0, 0, 0, 0, 0⟩, audit := [] }

/-- Embeds `Timesheet.findOneAndUpdate({trainerId, weekStart}, {$setOnInsert: ...},
{upsert: true, new: true})`: the existing bucket, or the fresh one. -/
def loadOrCreateTimesheet (store : List Timesheet) (a : UpsertArgs) : Timesheet :=
  match findDoc (upsertKey a) store with
  | some t => t
  | none => freshTimesheet a

/-- The line item built by the upsert: `hours = minutes / 60`,
`amountCents = Math.round(hours * hourlyRateCents)`,
`mileageCents = Math.round(km * kmRateCents)`,
`totalCents = amountCents + mileageCents`. -/
def timesheetItemFor (a : UpsertArgs) : TimesheetItem :=
  let hours : ℚ := a.minutes / 60
  let amountCents := jsRound (hours * (a.hourlyRateCents : ℚ))
  let mileageCents := jsRound (a.km * (a.kmRateCents : ℚ))
  { shiftId := a.shiftId, participantId := a.participantId, date := a.date,
    service := a.service, minutes := a.minutes, hours := some hours, km := a.km,
    hourlyRateCents := a.hourlyRateCents, kmRateCents := a.kmRateCents,
    amountCents := amountCents, mileageCents := mileageCents,
    totalCents := amountCents + mileageCents }

/-- The in-memory mutation of the loaded/created timesheet:
replace-or-append the item keyed by `shiftId`, backfill `hours` on every
item, recompute all totals from the current items, and refresh
`weekEnd`. -/
def applyUpsert (a : UpsertArgs) (ts : Timesheet) : Timesheet :=
  let items := (upsertItem (timesheetItemFor a) ts.items).map backfillHours
  let sum := sumItems items
  { ts with
    items := items
    weekEnd := endOfWeekUTC (startOfWeekUTC a.date)
    totals :=
      { hours := sum.hours, km := sum.km, amountCents := sum.amountCents,
        mileageCents := sum.mileageCents,
        totalCents := sum.amountCents + sum.mileageCents } }

/-- Embeds `upsertTimesheetForShift` of `services/shiftRequest.service.ts`:
resolve the UTC week bucket of `date`, upsert-by-`(trainerId, weekStart)`,
apply the item upsert and totals recompute, and save. Returns the updated
store and the saved timesheet. -/
def upsertTimesheetForShift (store : List Timesheet) (a : UpsertArgs) :
    List Timesheet × Timesheet :=
  let ts' := applyUpsert a (loadOrCreateTimesheet store a)
  (saveDoc (upsertKey a) ts' store, ts')

/-- Run a sequence of upserts against a timesheet store. -/
def runUpserts (store : List Timesheet) : List UpsertArgs → List Timesheet
  | [] => store
  | a :: rest => runUpserts (upsertTimesheetForShift store a).1 rest

/-! ### Sums over item fields (the right-hand sides of the C1 invariant) -/

def sumTotalCents (items : List TimesheetItem) : Int :=
  (items.map TimesheetItem.totalCents).sum

def sumAmountCents (items : List TimesheetItem) : Int :=
  (items.map TimesheetItem.amountCents).sum

def sumMileageCents (items : List TimesheetItem) : Int :=
  (items.map TimesheetItem.mileageCents).sum

def sumKm (items : List TimesheetItem) : ℚ :=
  (items.map TimesheetItem.km).sum

/-- Sum of the item `hours` fields, reading a missing legacy `hours` as
`minutes / 60` exactly as the recompute does. -/
def sumHoursField (items : List TimesheetItem) : ℚ :=
  (items.map (fun i => i.hours.getD (i.minutes / 60))).sum

/-- Per-item consistency: the stored line total is labour plus travel, and
`hours` is present. Every item written by the upsert satisfies this. -/
def itemConsistent (i : TimesheetItem) : Prop :=
  i.totalCents = i.amountCents + i.mileageCents ∧ i.hours.isSome

/-- The C1 invariant on one timesheet: each totals field is the exact sum
of the corresponding item fields. -/
def totalsMatchItems (ts : Timesheet) : Prop :=
  ts.totals.totalCents = sumTotalCents ts.items ∧
  ts.totals.hours = sumHoursField ts.items ∧
  ts.totals.km = sumKm ts.items ∧
  ts.totals.amountCents = sumAmountCents ts.items ∧
  ts.totals.mileageCents = sumMileageCents ts.items

def timesheetConsistent (ts : Timesheet) : Prop :=
  (∀ i ∈ ts.items, itemConsistent i) ∧ totalsMatchItems ts

def storeConsistent (store : List Timesheet) : Prop :=
  ∀ ts ∈ store, timesheetConsistent ts

theorem sumHoursField_cons (i : TimesheetItem) (rest : List TimesheetItem) :
    sumHoursField (i :: rest) = i.hours.getD (i.minutes / 60) + sumHoursField rest := by
  simp [sumHoursField]

theorem sumKm_cons (i : TimesheetItem) (rest : List TimesheetItem) :
    sumKm (i :: rest) = i.km + sumKm rest := by
  simp [sumKm]

theorem sumAmountCents_cons (i : TimesheetItem) (rest : List TimesheetItem) :
    sumAmountCents (i :: rest) = i.amountCents + sumAmountCents rest := by
  simp [sumAmountCents]

theorem sumMileageCents_cons (i : TimesheetItem) (rest : List TimesheetItem) :
    sumMileageCents (i :: rest) = i.mileageCents + sumMileageCents rest := by
  simp [sumMileageCents]

theorem foldl_sumStep_spec (items : List TimesheetItem) (acc : SumAcc) :
    (items.foldl sumStep acc).hours = acc.hours + sumHoursField items ∧
    (items.foldl sumStep acc).km = acc.km + sumKm items ∧
    (items.foldl sumStep acc).amountCents = acc.amountCents + sumAmountCents items ∧
    (items.foldl sumStep acc).mileageCents = acc.mileageCents + sumMileageCents items := by
  induction items generalizing acc with
  | nil => simp [sumHoursField, sumKm, sumAmountCents, sumMileageCents]
  | cons i rest ih =>
    obtain ⟨h1, h2, h3, h4⟩ := ih (sumStep acc i)
    refine ⟨?_, ?_, ?_, ?_⟩
    · rw [List.foldl_cons, h1, sumHoursField_cons]
      show acc.hours + i.hours.getD (i.minutes / 60) + _ = _
      ring
    · rw [List.foldl_cons, h2, sumKm_cons]
      show acc.km + i.km + _ = _
      ring
    · rw [List.foldl_cons, h3, sumAmountCents_cons]
      show acc.amountCents + i.amountCents + _ = _
      ring
    · rw [List.foldl_cons, h4, sumMileageCents_cons]
      show acc.mileageCents + i.mileageCents + _ = _
      ring

theorem sumItems_spec (items : List TimesheetItem) :
    (sumItems items).hours = sumHoursField items ∧
    (sumItems items).km = sumKm items ∧
    (sumItems items).amountCents = sumAmountCents items ∧
    (sumItems items).mileageCents = sumMileageCents items := by
  have h := foldl_sumStep_spec items ⟨0, 0, 0, 0, 0⟩
  simpa [sumItems] using h

theorem upsertItem_mem {item j : TimesheetItem} {l : List TimesheetItem}
    (h : j ∈ upsertItem item l) : j ∈ l ∨ j = item := by
  induction l with
  | nil => simp [upsertItem] at h; simp [h]
  | cons i rest ih =>
    by_cases hi : i.shiftId = item.shiftId
    · simp [upsertItem, beq_iff_eq, hi] at h
      rcases h with h | h
      · exact Or.inr h
      · exact Or.inl (List.mem_cons_of_mem _ h)
    · simp [upsertItem, beq_iff_eq, hi] at h
      rcases h with h | h
      · exact Or.inl (h ▸ List.mem_cons_self _ _)
      · rcases ih h with h' | h'
        · exact Or.inl (List.mem_cons_of_mem _ h')
        · exact Or.inr h'

theorem itemConsistent_backfill (i : TimesheetItem)
    (h : i.totalCents = i.amountCents + i.mileageCents) :
    itemConsistent (backfillHours i) := by
  constructor
  · simpa [backfillHours] using h
  · simp [backfillHours]

theorem sumTotalCents_eq_parts (items : List TimesheetItem)
    (h : ∀ i ∈ items, i.totalCents = i.amountCents + i.mileageCents) :
    sumTotalCents items = sumAmountCents items + sumMileageCents items := by
  induction items with
  | nil => simp [sumTotalCents, sumAmountCents, sumMileageCents]
  | cons i rest ih =>
    have hi := h i (List.mem_cons_self _ _)
    have hr := ih (fun j hj => h j (List.mem_cons_of_mem _ hj))
    simp only [sumTotalCents, sumAmountCents, sumMileageCents, List.map_cons,
      List.sum_cons] at *
    omega

theorem applyUpsert_items_consistent (a : UpsertArgs) (ts : Timesheet)
    (h : ∀ i ∈ ts.items, itemConsistent i) :
    ∀ i ∈ (applyUpsert a ts).items, itemConsistent i := by
  intro j hj
  simp only [applyUpsert, List.mem_map] at hj
  obtain ⟨j', hj', rfl⟩ := hj
  rcases upsertItem_mem hj' with hmem | rfl
  · exact itemConsistent_backfill _ (h j' hmem).1
  · exact itemConsistent_backfill _ (by simp [timesheetItemFor])

theorem applyUpsert_consistent (a : UpsertArgs) (ts : Timesheet)
    (h : ∀ i ∈ ts.items, itemConsistent i) :
    timesheetConsistent (applyUpsert a ts) := by
  refine ⟨applyUpsert_items_consistent a ts h, ?_, ?_, ?_, ?_, ?_⟩
  · have hs := sumItems_spec (applyUpsert a ts).items
    have htotal := sumTotalCents_eq_parts (applyUpsert a ts).items
      (fun i hi => (applyUpsert_items_consistent a ts h i hi).1)
    simp only [applyUpsert] at *
    omega
  all_goals
    have hs := sumItems_spec (applyUpsert a ts).items
    simp only [applyUpsert] at *
    tauto

theorem loadOrCreate_items_consistent (store : List Timesheet) (a : UpsertArgs)
    (h : storeConsistent store) :
    ∀ i ∈ (loadOrCreateTimesheet store a).items, itemConsistent i := by
  unfold loadOrCreateTimesheet
  cases hf : findDoc (upsertKey a) store with
  | some t => exact fun i hi => (h t (findDoc_mem hf)).1 i hi
  | none => simp [freshTimesheet]

theorem upsert_result_consistent (store : List Timesheet) (a : UpsertArgs)
    (h : storeConsistent store) :
    timesheetConsistent (upsertTimesheetForShift store a).2 :=
  applyUpsert_consistent a _ (loadOrCreate_items_consistent store a h)

theorem upsert_store_consistent (store : List Timesheet) (a : UpsertArgs)
    (h : storeConsistent store) :
    storeConsistent (upsertTimesheetForShift store a).1 := by
  intro ts hts
  rcases saveDoc_mem hts with h' | h'
  · exact h ts h'
  · exact h' ▸ upsert_result_consistent store a h

theorem runUpserts_consistent (as : List UpsertArgs) (store : List Timesheet)
    (h : storeConsistent store) : storeConsistent (runUpserts store as) := by
  induction as generalizing store with
  | nil => simpa [runUpserts] using h
  | cons a rest ih => exact ih _ (upsert_store_consistent store a h)

/-- C1: for every sequence of `upsertTimesheetForShift` calls starting from
an empty timesheet store (re-upserts of an existing shiftId included),
every stored timesheet's totals are the exact sums over its current items:
`totalCents`, `hours`, `km`, `amountCents` and `mileageCents` each equal
the sum of the corresponding item fields (every item carries an `hours`
value after the upsert), and the totals are only ever written as these
sums — never independently of the items. -/
theorem timesheet_totals_are_sum_of_items (as : List UpsertArgs) (ts : Timesheet)
    (h : ts ∈ runUpserts [] as) :
    ts.totals.totalCents = sumTotalCents ts.items ∧
    (∀ i ∈ ts.items, i.hours.isSome) ∧
    ts.totals.hours = sumHoursField ts.items ∧
    ts.totals.km = sumKm ts.items ∧
    ts.totals.amountCents = sumAmountCents ts.items ∧
    ts.totals.mileageCents = sumMileageCents ts.items := by
  have hc := runUpserts_consistent as [] (by intro t ht; simp at ht) ts h
  exact ⟨hc.2.1, fun i hi => (hc.1 i hi).2, hc.2.2.1, hc.2.2.2.1, hc.2.2.2.2.1,
    hc.2.2.2.2.2⟩

/-- A concrete upsert argument: 60 billable minutes and 12 km at the stub
rates, anchored in the week of the epoch. -/
def exampleUpsertArgs : UpsertArgs :=
  { newId := 1, trainerId := 10, participantId := 20, shiftId := 30,
    service := "PersonalCare", date := 0, minutes := 60, km := 12,
    hourlyRateCents := 6500, kmRateCents := 85 }

theorem timesheet_totals_are_sum_of_items_witness :
    (upsertTimesheetForShift [] exampleUpsertArgs).2.totals.totalCents =
      sumTotalCents (upsertTimesheetForShift [] exampleUpsertArgs).2.items ∧
    (upsertTimesheetForShift [] exampleUpsertArgs).2.totals.hours =
      sumHoursField (upsertTimesheetForShift [] exampleUpsertArgs).2.items :=
  have h := timesheet_totals_are_sum_of_items [exampleUpsertArgs]
    (upsertTimesheetForShift [] exampleUpsertArgs).2
    (by simp [runUpserts, upsertTimesheetForShift, saveDoc])
  ⟨h.1, h.2.2.1⟩

/-! ### C4: idempotence per shiftId -/

/-- Number of line items keyed by a given shiftId. -/
def countForShift (items : List TimesheetItem) (s : OId) : Nat :=
  items.countP (fun i => i.shiftId == s)

theorem countForShift_map_backfill (items : List TimesheetItem) (s : OId) :
    countForShift (items.map backfillHours) s = countForShift items s := by
  induction items with
  | nil => rfl
  | cons i rest ih =>
    simp only [countForShift, List.map_cons, List.countP_cons] at *
    simp [backfillHours, ih]

theorem countForShift_upsertItem_self (item : TimesheetItem) (l : List TimesheetItem) :
    countForShift (upsertItem item l) item.shiftId =
      max 1 (countForShift l item.shiftId) := by
  induction l with
  | nil => simp [upsertItem, countForShift]
  | cons i rest ih =>
    by_cases hi : i.shiftId = item.shiftId
    · simp only [upsertItem, beq_iff_eq, hi, if_true, countForShift, List.countP_cons]
      simp
    · simp only [upsertItem, beq_iff_eq, hi, if_false, countForShift, List.countP_cons]
      simp only [countForShift] at ih
      simp [hi, ih]

theorem countForShift_upsertItem_other (item : TimesheetItem) (l : List TimesheetItem)
    (s : OId) (h : s ≠ item.shiftId) :
    countForShift (upsertItem item l) s = countForShift l s := by
  have hne : item.shiftId ≠ s := fun hh => h hh.symm
  induction l with
  | nil => simp [upsertItem, countForShift, hne]
  | cons i rest ih =>
    by_cases hi : i.shiftId = item.shiftId
    · simp only [upsertItem, beq_iff_eq, hi, if_true, countForShift, List.countP_cons]
    · simp only [upsertItem, beq_iff_eq, hi, if_false, countForShift, List.countP_cons]
      simp only [countForShift] at ih
      simp [ih]

theorem timesheetItemFor_shiftId (a : UpsertArgs) :
    (timesheetItemFor a).shiftId = a.shiftId := rfl

theorem applyUpsert_count_self (a : UpsertArgs) (ts : Timesheet) :
    countForShift (applyUpsert a ts).items a.shiftId =
      max 1 (countForShift ts.items a.shiftId) := by
  show countForShift ((upsertItem (timesheetItemFor a) ts.items).map backfillHours)
    a.shiftId = _
  rw [countForShift_map_backfill, ← timesheetItemFor_shiftId a,
    countForShift_upsertItem_self]

theorem applyUpsert_count_other (a : UpsertArgs) (ts : Timesheet) (s : OId)
    (h : s ≠ a.shiftId) :
    countForShift (applyUpsert a ts).items s = countForShift ts.items s := by
  show countForShift ((upsertItem (timesheetItemFor a) ts.items).map backfillHours) s = _
  rw [countForShift_map_backfill, countForShift_upsertItem_other]
  exact fun hh => h (hh.trans (timesheetItemFor_shiftId a))

/-- The C4 invariant on a store: no timesheet holds two items for the same
shiftId. -/
def storeCountsBounded (store : List Timesheet) : Prop :=
  ∀ ts ∈ store, ∀ s, countForShift ts.items s ≤ 1

theorem upsert_counts_bounded (store : List Timesheet) (a : UpsertArgs)
    (h : storeCountsBounded store) :
    storeCountsBounded (upsertTimesheetForShift store a).1 := by
  have hload : ∀ s, countForShift (loadOrCreateTimesheet store a).items s ≤ 1 := by
    unfold loadOrCreateTimesheet
    cases hf : findDoc (upsertKey a) store with
    | some t => exact h t (findDoc_mem hf)
    | none => intro s; simp [freshTimesheet, countForShift]
  intro ts hts s
  rcases saveDoc_mem hts with h' | h'
  · exact h ts h' s
  · subst h'
    by_cases hs : s = a.shiftId
    · subst hs
      have := applyUpsert_count_self a (loadOrCreateTimesheet store a)
      have hb := hload a.shiftId
      show countForShift (applyUpsert a (loadOrCreateTimesheet store a)).items a.shiftId ≤ 1
      omega
    · have := applyUpsert_count_other a (loadOrCreateTimesheet store a) s hs
      have hb := hload s
      show countForShift (applyUpsert a (loadOrCreateTimesheet store a)).items s ≤ 1
      omega

theorem runUpserts_counts_bounded (as : List UpsertArgs) (store : List Timesheet)
    (h : storeCountsBounded store) : storeCountsBounded (runUpserts store as) := by
  induction as generalizing store with
  | nil => simpa [runUpserts] using h
  | cons a rest ih => exact ih _ (upsert_counts_bounded store a h)

/-- C4: `upsertTimesheetForShift` is idempotent per shiftId with respect to
item count. After any sequence of upserts from an empty store, one more
upsert for a given shiftId leaves exactly one item keyed by that shiftId
in the resulting timesheet (re-runs replace in place rather than append),
and no shiftId is ever keyed by more than one item. -/
theorem upsert_item_count_stays_one (as : List UpsertArgs) (a : UpsertArgs) :
    countForShift ((upsertTimesheetForShift (runUpserts [] as) a).2).items
        a.shiftId = 1 ∧
    ∀ s, countForShift ((upsertTimesheetForShift (runUpserts [] as) a).2).items s ≤ 1 := by
  have hb : storeCountsBounded (runUpserts [] as) :=
    runUpserts_counts_bounded as [] (by intro t ht; simp at ht)
  have hload : ∀ s, countForShift (loadOrCreateTimesheet (runUpserts [] as) a).items s ≤ 1 := by
    unfold loadOrCreateTimesheet
    cases hf : findDoc (upsertKey a) (runUpserts [] as) with
    | some t => exact hb t (findDoc_mem hf)
    | none => intro s; simp [freshTimesheet, countForShift]
  constructor
  · have h1 := applyUpsert_count_self a (loadOrCreateTimesheet (runUpserts [] as) a)
    have h2 := hload a.shiftId
    show countForShift (applyUpsert a (loadOrCreateTimesheet (runUpserts [] as) a)).items
      a.shiftId = 1
    omega
  · intro s
    by_cases hs : s = a.shiftId
    · subst hs
      have h1 := applyUpsert_count_self a (loadOrCreateTimesheet (runUpserts [] as) a)
      have h2 := hload a.shiftId
      show countForShift (applyUpsert a (loadOrCreateTimesheet (runUpserts [] as) a)).items
        a.shiftId ≤ 1
      omega
    · have h1 := applyUpsert_count_other a (loadOrCreateTimesheet (runUpserts [] as) a) s hs
      have h2 := hload s
      show countForShift (applyUpsert a (loadOrCreateTimesheet (runUpserts [] as) a)).items
        s ≤ 1
      omega

/-! ## Timesheet status workflow (`services/timesheets.service.ts`) -/

/-- The `findById(id)` key on timesheets. -/
def tsKey (id : OId) (t : Timesheet) : Bool := t.id == id

/-- Embeds `submitTimesheet`: load by id (NotFound if absent) and set status
SUBMITTED. Note: both the ownership check and the
`if (ts.status !== "DRAFT") throw ... 409` guard are commented out in the
source, so the status is overwritten unconditionally. -/
def submitTimesheet (store : List Timesheet) (id : OId) :
    Except AppError (List Timesheet × Timesheet) :=
  match findDoc (tsKey id) store with
  | none => .error (notFoundError "Timesheet")
  | some ts =>
    let ts' := { ts with status := .SUBMITTED }
    .ok (saveDoc (tsKey id) ts' store, ts')

/-- Embeds `approveTimesheet`: load by id (NotFound if absent); Conflict 409
unless the current status is SUBMITTED or REOPENED; set APPROVED. -/
def approveTimesheet (store : List Timesheet) (id : OId) :
    Except AppError (List Timesheet × Timesheet) :=
  match findDoc (tsKey id) store with
  | none => .error (notFoundError "Timesheet")
  | some ts =>
    if ts.status ≠ .SUBMITTED ∧ ts.status ≠ .REOPENED then
      .error ⟨"Only SUBMITTED/REOPENED can be approved", 409⟩
    else
      let ts' := { ts with status := .APPROVED }
      .ok (saveDoc (tsKey id) ts' store, ts')

/-- Embeds `reopenTimesheet`: load by id (NotFound if absent); Conflict 409
unless the current status is SUBMITTED or APPROVED; set REOPENED and
append one `{by, at, reason}` entry to the audit list. -/
def reopenTimesheet (store : List Timesheet) (id : OId) (adminUserId : OId)
    (reason : Option String) (now : Int) :
    Except AppError (List Timesheet × Timesheet) :=
  match findDoc (tsKey id) store with
  | none => .error (notFoundError "Timesheet")
  | some ts =>
    if ts.status ≠ .SUBMITTED ∧ ts.status ≠ .APPROVED then
      .error ⟨"Only SUBMITTED/APPROVED can be reopened", 409⟩
    else
      let ts' := { ts with
        status := .REOPENED
        audit := ts.audit ++ [{ by_ := adminUserId, at_ := now, reason := reason }] }
      .ok (saveDoc (tsKey id) ts' store, ts')

/-- A concrete APPROVED timesheet (empty, week of the epoch). -/
def approvedTimesheet : Timesheet :=
  { id := 7, trainerId := 10, weekStart := -259200000, weekEnd := 345599999,
    status := .APPROVED, items := [], totals := ⟨0, 0, 0, 0, 0⟩, audit := [] }

/-- C3 counterexample: submitting an APPROVED timesheet (skipping reopen)
does not fail with Conflict — the DRAFT-only guard is commented out in
`submitTimesheet`, so the call succeeds and overwrites the status with
SUBMITTED. -/
theorem submit_approved_succeeds :
    submitTimesheet [approvedTimesheet] 7 =
      .ok ([{ approvedTimesheet with status := .SUBMITTED }],
        { approvedTimesheet with status := .SUBMITTED }) := rfl

/-- C3 (amended): `submitTimesheet` sets SUBMITTED unconditionally from
any current status of a found timesheet (in particular DRAFT→SUBMITTED
succeeds, but APPROVED→SUBMITTED also succeeds instead of failing with
Conflict); `approveTimesheet` moves SUBMITTED (or REOPENED) to APPROVED
and fails with Conflict 409 naming the allowed source statuses from any
other status; `reopenTimesheet` moves SUBMITTED (or APPROVED) to REOPENED
appending exactly one audit entry `{by, at, reason}`, and fails with
Conflict 409 from any other status. -/
theorem timesheet_status_transitions (store : List Timesheet) (id : OId)
    (adminUserId : OId) (reason : Option String) (now : Int) (ts : Timesheet)
    (hfind : findDoc (tsKey id) store = some ts) :
    (submitTimesheet store id =
      .ok (saveDoc (tsKey id) { ts with status := .SUBMITTED } store,
        { ts with status := .SUBMITTED })) ∧
    (ts.status = .SUBMITTED ∨ ts.status = .REOPENED →
      approveTimesheet store id =
        .ok (saveDoc (tsKey id) { ts with status := .APPROVED } store,
          { ts with status := .APPROVED })) ∧
    (ts.status ≠ .SUBMITTED → ts.status ≠ .REOPENED →
      approveTimesheet store id =
        .error ⟨"Only SUBMITTED/REOPENED can be approved", 409⟩) ∧
    (ts.status = .SUBMITTED ∨ ts.status = .APPROVED →
      reopenTimesheet store id adminUserId reason now =
        .ok (saveDoc (tsKey id)
          { ts with
            status := .REOPENED
            audit := ts.audit ++ [{ by_ := adminUserId, at_ := now, reason := reason }] }
          store,
          { ts with
            status := .REOPENED
            audit := ts.audit ++ [{ by_ := adminUserId, at_ := now, reason := reason }] })) ∧
    (ts.status ≠ .SUBMITTED → ts.status ≠ .APPROVED →
      reopenTimesheet store id adminUserId reason now =
        .error ⟨"Only SUBMITTED/APPROVED can be reopened", 409⟩) := by
  refine ⟨?_, ?_, ?_, ?_, ?_⟩
  · simp [submitTimesheet, hfind]
  · intro hs
    rcases hs with hs | hs <;> simp [approveTimesheet, hfind, hs]
  · intro hs hr
    simp [approveTimesheet, hfind, hs, hr]
  · intro hs
    rcases hs with hs | hs <;> simp [reopenTimesheet, hfind, hs]
  · intro hs ha
    simp [reopenTimesheet, hfind, hs, ha]

/-- A concrete SUBMITTED timesheet. -/
def submittedTimesheet : Timesheet :=
  { id := 8, trainerId := 10, weekStart := -259200000, weekEnd := 345599999,
    status := .SUBMITTED, items := [], totals := ⟨0, 0, 0, 0, 0⟩, audit := [] }

/-- A concrete REOPENED timesheet (reopened once). -/
def reopenedTimesheet : Timesheet :=
  { submittedTimesheet with
    id := 9
    status := .REOPENED
    audit := [{ by_ := 99, at_ := 0, reason := some "fix km" }] }

theorem timesheet_status_transitions_witness :
    approveTimesheet [submittedTimesheet] 8 =
      .ok ([{ submittedTimesheet with status := .APPROVED }],
        { submittedTimesheet with status := .APPROVED }) ∧
    reopenTimesheet [submittedTimesheet] 8 99 (some "fix km") 0 =
      .ok ([{ submittedTimesheet with
              status := .REOPENED
              audit := [{ by_ := 99, at_ := 0, reason := some "fix km" }] }],
        { submittedTimesheet with
          status := .REOPENED
          audit := [{ by_ := 99, at_ := 0, reason := some "fix km" }] }) ∧
    approveTimesheet [reopenedTimesheet] 9 =
      .ok ([{ reopenedTimesheet with status := .APPROVED }],
        { reopenedTimesheet with status := .APPROVED }) ∧
    reopenTimesheet [approvedTimesheet] 7 99 (some "missing shift") 1 =
      .ok ([{ approvedTimesheet with
              status := .REOPENED
              audit := [{ by_ := 99, at_ := 1, reason := some "missing shift" }] }],
        { approvedTimesheet with
          status := .REOPENED
          audit := [{ by_ := 99, at_ := 1, reason := some "missing shift" }] }) := by
  have h := timesheet_status_transitions [submittedTimesheet] 8 99 (some "fix km") 0
    submittedTimesheet (by rfl)
  have h' := timesheet_status_transitions [reopenedTimesheet] 9 99 none 1
    reopenedTimesheet (by rfl)
  have h'' := timesheet_status_transitions [approvedTimesheet] 7 99
    (some "missing shift") 1 approvedTimesheet (by rfl)
  exact ⟨h.2.1 (Or.inl rfl), h.2.2.2.1 (Or.inl rfl),
    h'.2.1 (Or.inr rfl), h''.2.2.2.1 (Or.inr rfl)⟩

/-! ## Shift request creation (`createShiftRequest`, part_004) -/

/-- Embeds `validateRequestWindow`: business validation of the time window. The
`isNaN` guards on unparsable dates have no counterpart on `Int`
timestamps. The minimum-duration check divides milliseconds by
`1000 * 60` in JS number arithmetic, embedded exactly on `ℚ`. -/
def validateRequestWindow (start end_ : Int) (now : Int) : Except AppError Unit :=
  if start ≥ end_ then
    .error ⟨"End time must be after start time", 400⟩
  else if end_ < now then
    .error ⟨"Cannot request a shift in the past", 400⟩
  else if ((end_ - start : Int) : ℚ) / (1000 * 60) < 30 then
    .error ⟨"Shift must be at least 30 minutes", 400⟩
  else
    .ok ()

/-- Embeds `ensureParticipantOwnership`: the participant id must resolve to a
user (`User.findById`); a non-ADMIN requester must be that user. -/
def ensureParticipantOwnership (users : List User) (participantId : OId)
    (userId : OId) (role : Option Role) : Except AppError User :=
  match findDoc (fun u => u.id == participantId) users with
  | none => .error (notFoundError "Participant")
  | some participant =>
    if role ≠ some .ADMIN ∧ participant.id ≠ userId then
      .error ⟨"You are not allowed to create requests for this participant", 403⟩
    else .ok participant

/-- Embeds `CreateShiftRequestInput`. The service checks the five required
payload fields for JS-falsiness; presence is embedded as `Option`.
`start`/`end` arrive already parsed to timestamps. -/
structure CreateShiftRequestInput where
  participantId : Option OId
  requestedBy : Option OId
  service : Option String
  start : Option Int
  end_ : Option Int
  notes : Option String
  preferredTrainerIds : List OId
deriving Repr, DecidableEq

/-- Embeds `createShiftRequest`: require the payload fields, validate the time
window, validate participant ownership, and create a PENDING_ADMIN record
(`newId` is the id the database assigns). -/
def createShiftRequest (users : List User) (now : Int) (newId : OId)
    (p : CreateShiftRequestInput) (role : Option Role) :
    Except AppError ShiftRequest :=
  match p.participantId, p.requestedBy, p.service, p.start, p.end_ with
  | some participantId, some requestedBy, some service, some start, some end_ =>
    match validateRequestWindow start end_ now with
    | .error e => .error e
    | .ok _ =>
      match ensureParticipantOwnership users participantId requestedBy role with
      | .error e => .error e
      | .ok _ =>
        .ok { id := newId, participantId := participantId, requestedBy := requestedBy,
              service := service, start := start, end_ := end_, notes := p.notes,
              preferredTrainerIds := p.preferredTrainerIds, status := .PENDING_ADMIN,
              assignedTrainerId := none, linkedShiftId := none, adminComment := none,
              approvedBy := none, approvedAt := none, declinedReason := none }
  | _, _, _, _, _ =>
    .error ⟨"participantId, service, start and end are required", 400⟩

theorem duration_lt_iff (s e : Int) :
    ((e - s : Int) : ℚ) / (1000 * 60) < 30 ↔ e - s < 1800000 := by
  rw [div_lt_iff₀ (by norm_num : (0:ℚ) < 1000 * 60)]
  have h30 : (30 : ℚ) * (1000 * 60) = ((1800000 : Int) : ℚ) := by norm_num
  rw [h30, Int.cast_lt]

theorem validateRequestWindow_ok (s e now : Int) (h1 : s < e) (h2 : now ≤ e)
    (h3 : 1800000 ≤ e - s) : validateRequestWindow s e now = .ok () := by
  unfold validateRequestWindow
  rw [if_neg (by omega), if_neg (by omega), if_neg]
  rw [duration_lt_iff]
  omega

theorem validateRequestWindow_400 (s e now : Int)
    (h : e ≤ s ∨ e < now ∨ e - s < 1800000) :
    ∃ err, validateRequestWindow s e now = .error err ∧ err.statusCode = 400 := by
  unfold validateRequestWindow
  by_cases h1 : s ≥ e
  · rw [if_pos h1]; exact ⟨_, rfl, rfl⟩
  · rw [if_neg h1]
    by_cases h2 : e < now
    · rw [if_pos h2]; exact ⟨_, rfl, rfl⟩
    · rw [if_neg h2]
      have h3 : ((e - s : Int) : ℚ) / (1000 * 60) < 30 := by
        rw [duration_lt_iff]; omega
      rw [if_pos h3]; exact ⟨_, rfl, rfl⟩

theorem ensureParticipantOwnership_ok (users : List User) (pid uid : OId)
    (role : Option Role) (u : User)
    (hfind : findDoc (fun v => v.id == pid) users = some u)
    (hperm : role = some Role.ADMIN ∨ pid = uid) :
    ensureParticipantOwnership users pid uid role = .ok u := by
  unfold ensureParticipantOwnership
  rw [hfind]
  have hid : u.id = pid := by simpa [beq_iff_eq] using findDoc_sat hfind
  dsimp only
  rcases hperm with h | h
  · rw [if_neg (by simp [h])]
  · rw [if_neg (by simp [hid, h])]

/-- C5: with all payload fields present, a window with `end > start`,
duration at least 30 minutes and `end ≥ now`, a resolvable participant
and a permitted requester (admin, or the participant themselves),
`createShiftRequest` succeeds and the created record has status
PENDING_ADMIN; for `start ≥ end` it fails with a 400 ValidationError, and
likewise when `end` is in the past or the duration is under 30 minutes. -/
theorem create_shift_request_spec (users : List User) (now : Int) (newId : OId)
    (p : CreateShiftRequestInput) (role : Option Role)
    (participantId requestedBy : OId) (service : String) (start end_ : Int)
    (hp1 : p.participantId = some participantId)
    (hp2 : p.requestedBy = some requestedBy)
    (hp3 : p.service = some service)
    (hp4 : p.start = some start)
    (hp5 : p.end_ = some end_) :
    (start < end_ → now ≤ end_ → 1800000 ≤ end_ - start →
      (∃ u, findDoc (fun v => v.id == participantId) users = some u) →
      (role = some Role.ADMIN ∨ participantId = requestedBy) →
      ∃ r, createShiftRequest users now newId p role = .ok r ∧
        r.status = .PENDING_ADMIN) ∧
    (end_ ≤ start →
      ∃ err, createShiftRequest users now newId p role = .error err ∧
        err.statusCode = 400) ∧
    (end_ < now →
      ∃ err, createShiftRequest users now newId p role = .error err ∧
        err.statusCode = 400) ∧
    (end_ - start < 1800000 →
      ∃ err, createShiftRequest users now newId p role = .error err ∧
        err.statusCode = 400) := by
  refine ⟨?_, ?_, ?_, ?_⟩
  · intro h1 h2 h3 ⟨u, hu⟩ hperm
    simp only [createShiftRequest, hp1, hp2, hp3, hp4, hp5,
      validateRequestWindow_ok start end_ now h1 h2 h3,
      ensureParticipantOwnership_ok users participantId requestedBy role u hu hperm]
    exact ⟨_, rfl, rfl⟩
  all_goals
    intro h
    obtain ⟨err, herr, hcode⟩ := validateRequestWindow_400 start end_ now (by omega)
    simp only [createShiftRequest, hp1, hp2, hp3, hp4, hp5, herr]
    exact ⟨err, rfl, hcode⟩

/-- The participant user of the running example. -/
def exampleParticipantUser : User :=
  ⟨20, "participant@example.com", .PARTICIPANT, .ACTIVE⟩

/-- A valid creation payload: one hour, starting at the epoch. -/
def exampleCreateInput : CreateShiftRequestInput :=
  { participantId := some 20, requestedBy := some 20,
    service := some "PersonalCare", start := some 0, end_ := some 3600000,
    notes := none, preferredTrainerIds := [] }

/-- The same payload with start and end swapped (`start ≥ end`). -/
def exampleCreateInputSwapped : CreateShiftRequestInput :=
  { exampleCreateInput with start := some 3600000, end_ := some 0 }

theorem create_shift_request_spec_witness :
    (∃ r, createShiftRequest [exampleParticipantUser] 0 5 exampleCreateInput
        (some .PARTICIPANT) = .ok r ∧ r.status = .PENDING_ADMIN) ∧
    (∃ err, createShiftRequest [exampleParticipantUser] 0 5 exampleCreateInputSwapped
        (some .PARTICIPANT) = .error err ∧ err.statusCode = 400) := by
  have h := create_shift_request_spec [exampleParticipantUser] 0 5 exampleCreateInput
    (some .PARTICIPANT) 20 20 "PersonalCare" 0 3600000 rfl rfl rfl rfl rfl
  have h' := create_shift_request_spec [exampleParticipantUser] 0 5
    exampleCreateInputSwapped (some .PARTICIPANT) 20 20 "PersonalCare" 3600000 0
    rfl rfl rfl rfl rfl
  exact ⟨h.1 (by omega) (by omega) (by omega) ⟨exampleParticipantUser, rfl⟩
      (Or.inr rfl),
    h'.2.1 (by omega)⟩

/-! ## Admin approval (`approveAndAssign`, part_004) -/

theorem findDoc_saveDoc_self {α : Type} (p : α → Bool) (doc : α) (l : List α)
    (hp : p doc = true) : findDoc p (saveDoc p doc l) = some doc := by
  induction l with
  | nil => simp [saveDoc, findDoc, hp]
  | cons x rest ih =>
    by_cases hx : p x
    · simp [saveDoc, findDoc, hx, hp]
    · simp [saveDoc, findDoc, hx, ih]

/-- The `findById(id)` key on shift requests. -/
def srKey (id : OId) (r : ShiftRequest) : Bool := r.id == id

/-- Embeds `approveAndAssign`: requires the loaded request to be PENDING_ADMIN
(else Conflict 409); requires the trainer to exist (`populate("userId")`
resolving the trainer's user), with user role TRAINER, user status not
BLOCKED and trainer profile status not "PENDING" (else BadRequest 400,
before any mutation); requires the participant profile to resolve; then
sets status APPROVED, assignedTrainerId, approvedBy and approvedAt, and
saves. The email notifications are wrapped in try/catch in the source and
never affect the result, so they are not modeled; the `isValidObjectId`
guards have no counterpart on opaque ids. -/
def approveAndAssign (sreqs : List ShiftRequest) (trainers : List Trainer)
    (users : List User) (participants : List Participant)
    (requestId trainerId adminUserId : OId) (now : Int) :
    Except AppError (List ShiftRequest × ShiftRequest) :=
  match findDoc (srKey requestId) sreqs with
  | none => .error (notFoundError "ShiftRequest")
  | some reqDoc =>
    if reqDoc.status ≠ .PENDING_ADMIN then
      .error ⟨"Only PENDING_ADMIN requests can be approved", 409⟩
    else
      match findDoc (fun t => t.id == trainerId) trainers with
      | none => .error (notFoundError "Trainer")
      | some trainer =>
        let trainerUser := findDoc (fun u => u.id == trainer.userId) users
        if (trainerUser.map User.role) ≠ some .TRAINER ∨
            (trainerUser.map User.status) = some .BLOCKED ∨
            trainer.status = "PENDING" then
          .error ⟨"Trainer is not eligible for assignment", 400⟩
        else
          match findDoc (fun pp => pp.userId == reqDoc.participantId) participants with
          | none => .error (notFoundError "Participant")
          | some _participant =>
            let reqDoc' := { reqDoc with
              status := .APPROVED
              assignedTrainerId := some trainerId
              approvedBy := some adminUserId
              approvedAt := some now }
            .ok (saveDoc (srKey requestId) reqDoc' sreqs, reqDoc')

/-- The approved request produced by a successful `approveAndAssign`. -/
def approvedRequest (r : ShiftRequest) (trainerId adminUserId : OId) (now : Int) :
    ShiftRequest :=
  { r with
    status := .APPROVED
    assignedTrainerId := some trainerId
    approvedBy := some adminUserId
    approvedAt := some now }

/-- C6: `approveAndAssign` succeeds only from PENDING_ADMIN, setting
status APPROVED, assignedTrainerId, approvedBy and approvedAt; on a
request that is not PENDING_ADMIN (in particular one already approved by
a first call) it fails with Conflict 409; and an ineligible trainer
(user role not TRAINER, user status BLOCKED, or trainer profile status
"PENDING") fails with BadRequest 400 before any mutation, so the stored
request is unchanged (an error result never saves). -/
theorem approve_and_assign_spec (sreqs : List ShiftRequest)
    (trainers : List Trainer) (users : List User)
    (participants : List Participant) (requestId trainerId adminUserId : OId)
    (now : Int) (r : ShiftRequest)
    (hfind : findDoc (srKey requestId) sreqs = some r) :
    (∀ t u p, r.status = .PENDING_ADMIN →
      findDoc (fun t' => t'.id == trainerId) trainers = some t →
      findDoc (fun u' => u'.id == t.userId) users = some u →
      u.role = .TRAINER → u.status ≠ .BLOCKED → t.status ≠ "PENDING" →
      findDoc (fun pp => pp.userId == r.participantId) participants = some p →
      approveAndAssign sreqs trainers users participants requestId trainerId
          adminUserId now =
        .ok (saveDoc (srKey requestId)
            (approvedRequest r trainerId adminUserId now) sreqs,
          approvedRequest r trainerId adminUserId now)) ∧
    (r.status ≠ .PENDING_ADMIN →
      approveAndAssign sreqs trainers users participants requestId trainerId
          adminUserId now =
        .error ⟨"Only PENDING_ADMIN requests can be approved", 409⟩) ∧
    (∀ t u, r.status = .PENDING_ADMIN →
      findDoc (fun t' => t'.id == trainerId) trainers = some t →
      findDoc (fun u' => u'.id == t.userId) users = some u →
      (u.role ≠ .TRAINER ∨ u.status = .BLOCKED ∨ t.status = "PENDING") →
      approveAndAssign sreqs trainers users participants requestId trainerId
          adminUserId now =
        .error ⟨"Trainer is not eligible for assignment", 400⟩) ∧
    (∀ store' r', approveAndAssign sreqs trainers users participants requestId
          trainerId adminUserId now = .ok (store', r') →
      ∀ trainerId2 adminUserId2 now2,
        approveAndAssign store' trainers users participants requestId trainerId2
            adminUserId2 now2 =
          .error ⟨"Only PENDING_ADMIN requests can be approved", 409⟩) := by
  refine ⟨?_, ?_, ?_, ?_⟩
  · intro t u p hst htr hu hrole hstat htstat hp
    unfold approveAndAssign
    rw [hfind]
    dsimp only
    rw [if_neg (by simp [hst]), htr]
    dsimp only
    rw [hu]
    rw [if_neg (by simp [hrole, hstat, htstat]), hp]
    rfl
  · intro hst
    unfold approveAndAssign
    rw [hfind]
    dsimp only
    rw [if_pos hst]
  · intro t u hst htr hu helig
    unfold approveAndAssign
    rw [hfind]
    dsimp only
    rw [if_neg (by simp [hst]), htr]
    dsimp only
    rw [hu]
    rw [if_pos (by simpa using helig)]
  · intro store' r' hok trainerId2 adminUserId2 now2
    have hkey : srKey requestId r = true := findDoc_sat hfind
    have hid : r.id = requestId := by simpa [srKey] using hkey
    unfold approveAndAssign at hok
    rw [hfind] at hok
    dsimp only at hok
    split at hok
    · exact Except.noConfusion hok
    · split at hok
      · exact Except.noConfusion hok
      · split at hok
        · exact Except.noConfusion hok
        · split at hok
          · exact Except.noConfusion hok
          · rw [Except.ok.injEq, Prod.mk.injEq] at hok
            obtain ⟨hstore, hr'⟩ := hok
            subst hstore
            subst hr'
            unfold approveAndAssign
            rw [findDoc_saveDoc_self _ _ _ (by simpa [srKey] using hid)]
            dsimp only
            rw [if_pos (by simp)]

/-- The trainer's user account of the running example. -/
def exampleTrainerUser : User := ⟨41, "trainer@example.com", .TRAINER, .ACTIVE⟩

/-- The trainer profile of the running example (eligible). -/
def exampleTrainer : Trainer := ⟨40, 41, "Trainer T", "APPROVED"⟩

/-- The participant profile of the running example. -/
def exampleParticipantProfile : Participant :=
  ⟨50, 20, "Pat P", "participant@example.com"⟩

/-- A concrete PENDING_ADMIN shift request. -/
def examplePendingRequest : ShiftRequest :=
  { id := 100, participantId := 20, requestedBy := 20, service := "PersonalCare",
    start := 0, end_ := 3600000, notes := none, preferredTrainerIds := [],
    status := .PENDING_ADMIN, assignedTrainerId := none, linkedShiftId := none,
    adminComment := none, approvedBy := none, approvedAt := none,
    declinedReason := none }

theorem approve_and_assign_spec_witness :
    approveAndAssign [examplePendingRequest] [exampleTrainer]
        [exampleTrainerUser] [exampleParticipantProfile] 100 40 3 0 =
      .ok ([approvedRequest examplePendingRequest 40 3 0],
        approvedRequest examplePendingRequest 40 3 0) ∧
    approveAndAssign [approvedRequest examplePendingRequest 40 3 0]
        [exampleTrainer] [exampleTrainerUser] [exampleParticipantProfile]
        100 40 3 1 =
      .error ⟨"Only PENDING_ADMIN requests can be approved", 409⟩ := by
  have h := approve_and_assign_spec [examplePendingRequest] [exampleTrainer]
    [exampleTrainerUser] [exampleParticipantProfile] 100 40 3 0
    examplePendingRequest rfl
  have h1 : approveAndAssign [examplePendingRequest] [exampleTrainer]
      [exampleTrainerUser] [exampleParticipantProfile] 100 40 3 0 =
      .ok ([approvedRequest examplePendingRequest 40 3 0],
        approvedRequest examplePendingRequest 40 3 0) :=
    h.1 exampleTrainer exampleTrainerUser exampleParticipantProfile rfl rfl rfl
      rfl (by decide) (by decide) rfl
  exact ⟨h1, h.2.2.2 _ _ h1 40 3 1⟩

/-! ## Clock-in (`clockInShiftAsTrainer`, part_004) -/

/-- Result of a successful clock-in: updated request store, updated shift
store, and the created Shift. -/
structure ClockInResult where
  sreqs : List ShiftRequest
  shifts : List Shift
  shift : Shift
deriving Repr, DecidableEq

/-- Embeds `clockInShiftAsTrainer`: resolve the trainer profile by user id (404);
load the request (404); require it assigned to this trainer (403) and
APPROVED (409); reject when a Shift for this request is already
IN_PROGRESS (409); require a non-degenerate scheduled window — the JS
truthiness guard `!+scheduledStart || !+scheduledEnd` also fires on the
timestamp 0 — (500); then create the IN_PROGRESS Shift with
`actualClockIn = now` and `plannedClockOut = now + scheduled duration`,
and link it onto the request. The `reqDoc.status = "IN_PROGRESS"`
assignment is commented out in the source, so only `linkedShiftId`
changes. `newShiftId` is the id the database assigns; the
`isValidObjectId` guards have no counterpart on opaque ids. -/
def clockInShiftAsTrainer (trainers : List Trainer) (sreqs : List ShiftRequest)
    (shifts : List Shift) (trainerUserId shiftRequestId : OId) (now : Int)
    (newShiftId : OId) : Except AppError ClockInResult :=
  match findDoc (fun t => t.userId == trainerUserId) trainers with
  | none => .error ⟨"Trainer profile not found for this user", 404⟩
  | some trainer =>
    match findDoc (srKey shiftRequestId) sreqs with
    | none => .error (notFoundError "ShiftRequest")
    | some reqDoc =>
      if reqDoc.assignedTrainerId ≠ some trainer.id then
        .error ⟨"This shift request is not assigned to you", 403⟩
      else if reqDoc.status ≠ .APPROVED then
        .error ⟨"Only approved shift requests can be started", 409⟩
      else
        match findDoc (fun s => s.shiftRequestId == reqDoc.id &&
            s.status == ShiftStatus.IN_PROGRESS) shifts with
        | some _ => .error ⟨"This shift is already in progress", 409⟩
        | none =>
          if reqDoc.start = 0 ∨ reqDoc.end_ = 0 ∨ reqDoc.end_ ≤ reqDoc.start then
            .error ⟨"Shift request has invalid time window", 500⟩
          else
            let scheduledDurationMs := reqDoc.end_ - reqDoc.start
            let scheduledDurationMinutes :=
              jsRound ((scheduledDurationMs : ℚ) / 60000)
            let shift : Shift :=
              { id := newShiftId, shiftRequestId := reqDoc.id,
                participantId := reqDoc.participantId, trainerId := trainer.id,
                service := reqDoc.service, scheduledStart := reqDoc.start,
                scheduledEnd := reqDoc.end_,
                scheduledDurationMinutes := scheduledDurationMinutes,
                actualClockIn := now,
                plannedClockOut := now + scheduledDurationMs,
                actualClockOut := none, status := .IN_PROGRESS,
                report := none, billing := none }
            let reqDoc' := { reqDoc with linkedShiftId := some newShiftId }
            .ok { sreqs := saveDoc (srKey shiftRequestId) reqDoc' sreqs,
                  shifts := shifts ++ [shift], shift := shift }

/-! ## Clock-out (`clockOutShiftAsTrainer`, part_004) -/

/-- Report payload of a clock-out. `km` is embedded as an already-parsed
number; the source's `Number(report.km)` NaN case drops the field, which
`none` covers. -/
structure ReportInput where
  activities : Option String
  progress : Option String
  incidents : Option String
  km : Option ℚ
deriving Repr, DecidableEq

/-- Result of a successful clock-out. -/
structure ClockOutResult where
  sreqs : List ShiftRequest
  shifts : List Shift
  timesheets : List Timesheet
  shift : Shift
  timesheet : Timesheet
deriving Repr, DecidableEq

/-- Embeds `minutesBetween`: `Math.max(0, Math.round((+b - +a) / 60000))`. -/
def minutesBetween (a b : Int) : Int :=
  max 0 (jsRound (((b - a : Int) : ℚ) / 60000))

/-- Embeds the `getPricingSnapshotForShift` stub: fixed hourly and km rates
(6500 and 85 cents). -/
def getPricingSnapshotForShift : Int × Int := (6500, 85)

/-- The `findById(id)` key on shifts. -/
def shiftKey (id : OId) (s : Shift) : Bool := s.id == id

/-- Embeds `clockOutShiftAsTrainer`: resolve the trainer (404); load the request
(404); require ownership (403); load the linked Shift (404 when no link or
no document). The `shift.status !== "IN_PROGRESS"` Conflict guard is
commented out in the source, so completion is not required to be pending.
Sets `actualClockOut` to `now` capped to `scheduledEnd` (the JS truthiness
test on `shift.scheduledEnd` skips the cap for timestamp 0), overwrites
the report, computes `billableMinutes` from the ShiftRequest's scheduled
window only, freezes the pricing snapshot, marks Shift and request
COMPLETED, and upserts the weekly timesheet item for this shift.
`newTimesheetId` is the id the database would assign on a fresh weekly
timesheet. -/
def clockOutShiftAsTrainer (trainers : List Trainer) (sreqs : List ShiftRequest)
    (shifts : List Shift) (timesheets : List Timesheet)
    (trainerUserId shiftRequestId : OId) (report : Option ReportInput)
    (now : Int) (newTimesheetId : OId) : Except AppError ClockOutResult :=
  match findDoc (fun t => t.userId == trainerUserId) trainers with
  | none => .error ⟨"Trainer profile not found for this user", 404⟩
  | some trainer =>
    match findDoc (srKey shiftRequestId) sreqs with
    | none => .error (notFoundError "ShiftRequest")
    | some reqDoc =>
      if reqDoc.assignedTrainerId ≠ some trainer.id then
        .error ⟨"This shift request is not assigned to you", 403⟩
      else
        match reqDoc.linkedShiftId with
        | none => .error (notFoundError "Shift")
        | some linkedId =>
          match findDoc (shiftKey linkedId) shifts with
          | none => .error (notFoundError "Shift")
          | some shift =>
            let auditOut :=
              if shift.scheduledEnd ≠ 0 ∧ now > shift.scheduledEnd then
                shift.scheduledEnd
              else now
            let kmNum := report.bind ReportInput.km
            let rep : ShiftReport :=
              { activities := (report.bind ReportInput.activities).getD "",
                progress := (report.bind ReportInput.progress).getD "",
                incidents := (report.bind ReportInput.incidents).getD "",
                km := kmNum }
            let billableMinutes := minutesBetween reqDoc.start reqDoc.end_
            let hourlyRateCents := getPricingSnapshotForShift.1
            let kmRateCents := getPricingSnapshotForShift.2
            let shift' := { shift with
              actualClockOut := some auditOut
              status := ShiftStatus.COMPLETED
              report := some rep
              billing := some {
                billableMinutes := billableMinutes
                hourlyRateCents := hourlyRateCents
                kmRateCents := kmRateCents
                source := "ShiftRequest"
                scheduledStart := reqDoc.start
                scheduledEnd := reqDoc.end_ } }
            let reqDoc' := { reqDoc with status := ShiftRequestStatus.COMPLETED }
            let upserted := upsertTimesheetForShift timesheets
              { newId := newTimesheetId, trainerId := shift.trainerId,
                participantId := shift.participantId, shiftId := shift.id,
                service := shift.service, date := reqDoc.end_,
                minutes := (billableMinutes : ℚ), km := kmNum.getD 0,
                hourlyRateCents := hourlyRateCents, kmRateCents := kmRateCents }
            .ok { sreqs := saveDoc (srKey shiftRequestId) reqDoc' sreqs,
                  shifts := saveDoc (shiftKey linkedId) shift' shifts,
                  timesheets := upserted.1, shift := shift',
                  timesheet := upserted.2 }

/-- C9: a successful `clockInShiftAsTrainer` updates the ShiftRequest by
setting `linkedShiftId` to the created Shift's id and nothing else: the
stored request afterwards is exactly the prior request with
`linkedShiftId := some shift.id`, so its status stays APPROVED (the
IN_PROGRESS transition is commented out) and every other field is
unchanged. -/
theorem clock_in_sets_link_only (trainers : List Trainer)
    (sreqs : List ShiftRequest) (shifts : List Shift)
    (trainerUserId shiftRequestId : OId) (now : Int) (newShiftId : OId)
    (out : ClockInResult)
    (hok : clockInShiftAsTrainer trainers sreqs shifts trainerUserId
      shiftRequestId now newShiftId = .ok out) :
    ∃ r, findDoc (srKey shiftRequestId) sreqs = some r ∧
      r.status = .APPROVED ∧
      out.sreqs = saveDoc (srKey shiftRequestId)
        { r with linkedShiftId := some out.shift.id } sreqs ∧
      findDoc (srKey shiftRequestId) out.sreqs =
        some { r with linkedShiftId := some out.shift.id } := by
  unfold clockInShiftAsTrainer at hok
  split at hok
  · exact Except.noConfusion hok
  · split at hok
    · exact Except.noConfusion hok
    · rename_i trainer r hr
      split at hok
      · exact Except.noConfusion hok
      · split at hok
        · exact Except.noConfusion hok
        · rename_i hassign hstatus
          split at hok
          · exact Except.noConfusion hok
          · split at hok
            · exact Except.noConfusion hok
            · rw [Except.ok.injEq] at hok
              subst hok
              have hid : r.id = shiftRequestId := by
                simpa [srKey] using findDoc_sat hr
              refine ⟨r, hr, not_ne_iff.mp hstatus, rfl, ?_⟩
              exact findDoc_saveDoc_self _ _ _ (by simpa [srKey] using hid)

/-! ### C7: at most one IN_PROGRESS Shift per request -/

/-- Number of IN_PROGRESS shifts linked to a given request (the predicate
of the duplicate clock-in check). -/
def inProgressCount (shifts : List Shift) (reqId : OId) : Nat :=
  shifts.countP (fun s => s.shiftRequestId == reqId &&
    s.status == ShiftStatus.IN_PROGRESS)

theorem countP_zero_of_findDoc_none {α : Type} {p : α → Bool} {l : List α}
    (h : findDoc p l = none) : l.countP p = 0 := by
  induction l with
  | nil => rfl
  | cons x rest ih =>
    by_cases hx : p x
    · simp [findDoc, hx] at h
    · simp only [findDoc, hx, if_false] at h
      simp [List.countP_cons, hx, ih h]

theorem countP_saveDoc_le {α : Type} (p q : α → Bool) (doc : α) (l : List α)
    (hq : q doc = false) : (saveDoc p doc l).countP q ≤ l.countP q := by
  have hdoc : (if q doc = true then 1 else 0) = 0 := by simp [hq]
  induction l with
  | nil => simp [saveDoc, List.countP_cons, hq]
  | cons x rest ih =>
    by_cases hx : p x
    · have h1 : saveDoc p doc (x :: rest) = doc :: rest := by simp [saveDoc, hx]
      rw [h1, List.countP_cons, List.countP_cons, hdoc]
      omega
    · have h1 : saveDoc p doc (x :: rest) = x :: saveDoc p doc rest := by
        simp [saveDoc, hx]
      rw [h1, List.countP_cons, List.countP_cons]
      omega

/-- C7: at most one Shift may be IN_PROGRESS per ShiftRequest. A clock-in
attempt while such a Shift exists for the (found, assigned, APPROVED)
request fails with Conflict 409 — and an error result returns no updated
store, so no second Shift document is created; moreover every successful
clock-in and clock-out preserves the at-most-one-IN_PROGRESS-per-request
bound on the shift store. -/
theorem at_most_one_in_progress_per_request :
    (∀ (trainers : List Trainer) (sreqs : List ShiftRequest)
        (shifts : List Shift) (tUid srId : OId) (now : Int) (newId : OId)
        (t : Trainer) (r : ShiftRequest) (s0 : Shift),
      findDoc (fun t' => t'.userId == tUid) trainers = some t →
      findDoc (srKey srId) sreqs = some r →
      r.assignedTrainerId = some t.id → r.status = .APPROVED →
      findDoc (fun s => s.shiftRequestId == r.id &&
        s.status == ShiftStatus.IN_PROGRESS) shifts = some s0 →
      clockInShiftAsTrainer trainers sreqs shifts tUid srId now newId =
        .error ⟨"This shift is already in progress", 409⟩) ∧
    (∀ (trainers : List Trainer) (sreqs : List ShiftRequest)
        (shifts : List Shift) (tUid srId : OId) (now : Int) (newId : OId)
        (out : ClockInResult),
      clockInShiftAsTrainer trainers sreqs shifts tUid srId now newId = .ok out →
      (∀ reqId, inProgressCount shifts reqId ≤ 1) →
      ∀ reqId, inProgressCount out.shifts reqId ≤ 1) ∧
    (∀ (trainers : List Trainer) (sreqs : List ShiftRequest)
        (shifts : List Shift) (timesheets : List Timesheet) (tUid srId : OId)
        (report : Option ReportInput) (now : Int) (newTsId : OId)
        (out : ClockOutResult),
      clockOutShiftAsTrainer trainers sreqs shifts timesheets tUid srId report
        now newTsId = .ok out →
      (∀ reqId, inProgressCount shifts reqId ≤ 1) →
      ∀ reqId, inProgressCount out.shifts reqId ≤ 1) := by
  refine ⟨?_, ?_, ?_⟩
  · intro trainers sreqs shifts tUid srId now newId t r s0 ht hr hassign hstatus hdup
    unfold clockInShiftAsTrainer
    rw [ht, hr]
    dsimp only
    rw [if_neg (by simp [hassign]), if_neg (by simp [hstatus]), hdup]
  · intro trainers sreqs shifts tUid srId now newId out hok hinv reqId
    unfold clockInShiftAsTrainer at hok
    split at hok
    · exact Except.noConfusion hok
    · split at hok
      · exact Except.noConfusion hok
      · rename_i trainer r hr
        split at hok
        · exact Except.noConfusion hok
        · split at hok
          · exact Except.noConfusion hok
          · split at hok
            · exact Except.noConfusion hok
            · rename_i hnone
              split at hok
              · exact Except.noConfusion hok
              · rw [Except.ok.injEq] at hok
                subst hok
                show inProgressCount (shifts ++ [_]) reqId ≤ 1
                unfold inProgressCount at *
                rw [List.countP_append]
                by_cases hreq : r.id = reqId
                · have hzero := countP_zero_of_findDoc_none hnone
                  rw [hreq] at hzero
                  simp only [List.countP_cons, List.countP_nil]
                  simp [hreq, hzero]
                · have hle := hinv reqId
                  simp only [List.countP_cons, List.countP_nil]
                  simp [hreq]
                  omega
  · intro trainers sreqs shifts timesheets tUid srId report now newTsId out hok
      hinv reqId
    unfold clockOutShiftAsTrainer at hok
    split at hok
    · exact Except.noConfusion hok
    · split at hok
      · exact Except.noConfusion hok
      · split at hok
        · exact Except.noConfusion hok
        · split at hok
          · exact Except.noConfusion hok
          · split at hok
            · exact Except.noConfusion hok
            · rename_i sh hsh
              rw [Except.ok.injEq] at hok
              subst hok
              show (saveDoc _ _ shifts).countP _ ≤ 1
              calc (saveDoc _ _ shifts).countP _ ≤ shifts.countP _ :=
                    countP_saveDoc_le _ _ _ _ (by simp)
                _ ≤ 1 := hinv reqId

/-! ### C2 and C10: clock-out behaviour -/

theorem minutesBetween_whole (a b k : Int) (hk : b - a = k * 60000)
    (h0 : 0 ≤ k) : minutesBetween a b = k := by
  unfold minutesBetween jsRound
  rw [hk]
  have hdiv : ((k * 60000 : Int) : ℚ) / 60000 = (k : ℚ) := by
    push_cast
    field_simp
  rw [hdiv]
  have hfloor : ⌊(k : ℚ) + 1 / 2⌋ = k := by
    rw [Int.floor_int_add]
    norm_num
  rw [hfloor]
  omega

/-- C2: for every successful clock-out by the assigned trainer, the
Shift's `actualClockOut` is set to `min(now, scheduledEnd)` — capped to
the scheduled end (nonzero, as clock-in guarantees), never to
`plannedClockOut` — and the frozen `billing.billableMinutes` is computed
from the ShiftRequest's scheduled window alone,
`max 0 (round((end - start) / 60000))`, which for a whole window of `k`
minutes is exactly `k`, independent of `actualClockIn` and of the
clock-out time (e.g. 60 minutes and a 10:00 cap for a 09:00–10:00 window
clocked out at 10:30). -/
theorem clock_out_caps_audit_and_bills_schedule (trainers : List Trainer)
    (sreqs : List ShiftRequest) (shifts : List Shift)
    (timesheets : List Timesheet) (tUid srId : OId)
    (report : Option ReportInput) (now : Int) (newTsId : OId)
    (t : Trainer) (r : ShiftRequest) (linkedId : OId) (sh : Shift)
    (ht : findDoc (fun t' => t'.userId == tUid) trainers = some t)
    (hr : findDoc (srKey srId) sreqs = some r)
    (hassign : r.assignedTrainerId = some t.id)
    (hlink : r.linkedShiftId = some linkedId)
    (hsh : findDoc (shiftKey linkedId) shifts = some sh)
    (hse : sh.scheduledEnd ≠ 0) :
    ∃ out, clockOutShiftAsTrainer trainers sreqs shifts timesheets tUid srId
        report now newTsId = .ok out ∧
      out.shift.actualClockOut = some (min now sh.scheduledEnd) ∧
      out.shift.billing = some
        { billableMinutes := minutesBetween r.start r.end_
          hourlyRateCents := 6500
          kmRateCents := 85
          source := "ShiftRequest"
          scheduledStart := r.start
          scheduledEnd := r.end_ } ∧
      (∀ k : Int, 0 ≤ k → r.end_ - r.start = k * 60000 →
        minutesBetween r.start r.end_ = k) := by
  unfold clockOutShiftAsTrainer
  rw [ht, hr]
  dsimp only
  rw [if_neg (by simp [hassign]), hlink]
  dsimp only
  rw [hsh]
  refine ⟨_, rfl, ?_, rfl, ?_⟩
  · show some (if sh.scheduledEnd ≠ 0 ∧ now > sh.scheduledEnd then
      sh.scheduledEnd else now) = _
    by_cases hgt : now > sh.scheduledEnd
    · rw [if_pos ⟨hse, hgt⟩]
      congr 1
      omega
    · rw [if_neg (fun hc => hgt hc.2)]
      congr 1
      omega
  · intro k hk0 hk
    exact minutesBetween_whole r.start r.end_ k hk hk0

/-- C10: `clockOutShiftAsTrainer` does not require the linked Shift to be
IN_PROGRESS — the Conflict guard is commented out. For a request whose
linked Shift is already COMPLETED, a repeated clock-out by the assigned
trainer succeeds, overwriting `actualClockOut`, the report and the
billing snapshot, re-marking the Shift and the request COMPLETED, and
re-running the timesheet upsert keyed by the same shiftId. -/
theorem clock_out_succeeds_on_completed_shift (trainers : List Trainer)
    (sreqs : List ShiftRequest) (shifts : List Shift)
    (timesheets : List Timesheet) (tUid srId : OId)
    (report : Option ReportInput) (now : Int) (newTsId : OId)
    (t : Trainer) (r : ShiftRequest) (linkedId : OId) (sh : Shift)
    (ht : findDoc (fun t' => t'.userId == tUid) trainers = some t)
    (hr : findDoc (srKey srId) sreqs = some r)
    (hassign : r.assignedTrainerId = some t.id)
    (hlink : r.linkedShiftId = some linkedId)
    (hsh : findDoc (shiftKey linkedId) shifts = some sh)
    (hcompleted : sh.status = .COMPLETED) :
    ∃ out, clockOutShiftAsTrainer trainers sreqs shifts timesheets tUid srId
        report now newTsId = .ok out ∧
      out.shift.status = .COMPLETED ∧
      out.shift.actualClockOut =
        some (if sh.scheduledEnd ≠ 0 ∧ now > sh.scheduledEnd then
          sh.scheduledEnd else now) ∧
      out.shift.report = some
        { activities := (report.bind ReportInput.activities).getD ""
          progress := (report.bind ReportInput.progress).getD ""
          incidents := (report.bind ReportInput.incidents).getD ""
          km := report.bind ReportInput.km } ∧
      out.shift.billing = some
        { billableMinutes := minutesBetween r.start r.end_
          hourlyRateCents := 6500
          kmRateCents := 85
          source := "ShiftRequest"
          scheduledStart := r.start
          scheduledEnd := r.end_ } ∧
      findDoc (srKey srId) out.sreqs = some { r with status := .COMPLETED } ∧
      (out.timesheets, out.timesheet) = upsertTimesheetForShift timesheets
        { newId := newTsId, trainerId := sh.trainerId,
          participantId := sh.participantId, shiftId := sh.id,
          service := sh.service, date := r.end_,
          minutes := ((minutesBetween r.start r.end_ : Int) : ℚ),
          km := (report.bind ReportInput.km).getD 0,
          hourlyRateCents := 6500, kmRateCents := 85 } := by
  have hid : r.id = srId := by simpa [srKey] using findDoc_sat hr
  unfold clockOutShiftAsTrainer
  rw [ht, hr]
  dsimp only
  rw [if_neg (by simp [hassign]), hlink]
  dsimp only
  rw [hsh]
  refine ⟨_, rfl, rfl, rfl, rfl, rfl, ?_, rfl⟩
  exact findDoc_saveDoc_self _ _ _ (by simpa [srKey] using hid)

/-! ### Concrete clock-in / clock-out scenario (witnesses)

A 09:00–10:00 UTC window on day 0 of the epoch: start 32400000,
end 36000000; clock-in at 09:15 (33300000); late clock-out at 10:30
(37800000). -/

/-- The approved request of the running scenario (assigned to trainer 40). -/
def exampleApprovedRequest : ShiftRequest :=
  { examplePendingRequest with
    start := 32400000
    end_ := 36000000
    status := .APPROVED
    assignedTrainerId := some 40
    approvedBy := some 3
    approvedAt := some 0 }

/-- The Shift produced by clocking in at 09:15. -/
def exampleClockInShift : Shift :=
  { id := 77, shiftRequestId := 100, participantId := 20, trainerId := 40,
    service := "PersonalCare", scheduledStart := 32400000,
    scheduledEnd := 36000000,
    scheduledDurationMinutes := jsRound (((36000000 - 32400000 : Int) : ℚ) / 60000),
    actualClockIn := 33300000,
    plannedClockOut := 33300000 + (36000000 - 32400000),
    actualClockOut := none, status := .IN_PROGRESS,
    report := none, billing := none }

/-- The full result of that clock-in. -/
def exampleClockInResult : ClockInResult :=
  { sreqs := [{ exampleApprovedRequest with linkedShiftId := some 77 }],
    shifts := [exampleClockInShift], shift := exampleClockInShift }

theorem clock_in_sets_link_only_witness :
    ∃ r, findDoc (srKey 100) [exampleApprovedRequest] = some r ∧
      r.status = .APPROVED ∧
      exampleClockInResult.sreqs = saveDoc (srKey 100)
        { r with linkedShiftId := some exampleClockInResult.shift.id }
        [exampleApprovedRequest] ∧
      findDoc (srKey 100) exampleClockInResult.sreqs =
        some { r with linkedShiftId := some exampleClockInResult.shift.id } :=
  clock_in_sets_link_only [exampleTrainer] [exampleApprovedRequest] []
    41 100 33300000 77 exampleClockInResult rfl

theorem at_most_one_in_progress_witness :
    clockInShiftAsTrainer [exampleTrainer] [exampleApprovedRequest]
        [exampleClockInShift] 41 100 34000000 78 =
      .error ⟨"This shift is already in progress", 409⟩ :=
  at_most_one_in_progress_per_request.1 [exampleTrainer]
    [exampleApprovedRequest] [exampleClockInShift] 41 100 34000000 78
    exampleTrainer exampleApprovedRequest exampleClockInShift
    rfl rfl rfl rfl rfl

/-- The request after clock-in linked its Shift. -/
def exampleLinkedRequest : ShiftRequest :=
  { exampleApprovedRequest with linkedShiftId := some 77 }

theorem clock_out_caps_audit_witness :
    (∃ out, clockOutShiftAsTrainer [exampleTrainer] [exampleLinkedRequest]
        [exampleClockInShift] [] 41 100 none 37800000 9 = .ok out ∧
      out.shift.actualClockOut = some (min 37800000 36000000)) ∧
    minutesBetween 32400000 36000000 = 60 := by
  obtain ⟨out, hok, hcap, hbill, hwhole⟩ :=
    clock_out_caps_audit_and_bills_schedule [exampleTrainer]
      [exampleLinkedRequest] [exampleClockInShift] [] 41 100 none 37800000 9
      exampleTrainer exampleLinkedRequest 77 exampleClockInShift
      rfl rfl rfl rfl rfl (by decide)
  exact ⟨⟨out, hok, hcap⟩, hwhole 60 (by decide) (by decide)⟩

/-- The linked Shift after a first clock-out (already COMPLETED). -/
def exampleCompletedShift : Shift :=
  { exampleClockInShift with
    status := .COMPLETED
    actualClockOut := some 36000000 }

theorem clock_out_repeat_witness :
    ∃ out, clockOutShiftAsTrainer [exampleTrainer] [exampleLinkedRequest]
        [exampleCompletedShift] [] 41 100 none 38000000 9 = .ok out ∧
      out.shift.status = .COMPLETED ∧
      findDoc (srKey 100) out.sreqs =
        some { exampleLinkedRequest with status := .COMPLETED } := by
  obtain ⟨out, hok, hst, hcap, hrep, hbill, hreq, hts⟩ :=
    clock_out_succeeds_on_completed_shift [exampleTrainer]
      [exampleLinkedRequest] [exampleCompletedShift] [] 41 100 none 38000000 9
      exampleTrainer exampleLinkedRequest 77 exampleCompletedShift
      rfl rfl rfl rfl rfl rfl
  exact ⟨out, hok, hst, hreq⟩

end OLO
